import Mathlib

/-!
Verification of the access-control and hierarchical-data-access layer of the
Pametni-Urnik course-management application.

The development shallowly embeds:
* the `login` cloud function (method check, Basic-credential parsing via
  base64 decoding and colon splitting, token issuance);
* the token service (`issue` / `verify`), modelled from the spec where the
  `jsonwebtoken` wrapper `checkJwt` is not part of the provided sources;
* the protected resource handlers `getOneById` and `getAllForFaculty`
  (query-parameter checks, error mapping);
* the user-profile service (`saveUser`, `updateUser`) over an abstract
  document store modelled as association lists;
* the faculty-collection repository filter, modelled from the spec.
-/

namespace PametniUrnik

/-- Splits a character list at every occurrence of `sep`, mirroring the
JavaScript `String.prototype.split` with a single-character separator:
the result is always non-empty, and separators are not kept. -/
def splitOnChar (sep : Char) : List Char → List (List Char)
  | [] => [[]]
  | c :: cs =>
    if c = sep then [] :: splitOnChar sep cs
    else
      match splitOnChar sep cs with
      | [] => [[c]]
      | g :: gs => (c :: g) :: gs

theorem splitOnChar_ne_nil (sep : Char) (l : List Char) : splitOnChar sep l ≠ [] := by
  induction l with
  | nil => simp [splitOnChar]
  | cons c cs ih =>
    simp only [splitOnChar]
    by_cases h : c = sep
    · simp [h]
    · simp only [h, if_false]
      cases hs : splitOnChar sep cs with
      | nil => exact absurd hs ih
      | cons g gs => simp

/-- No chunk produced by `splitOnChar` contains the separator. -/
theorem not_mem_of_mem_splitOnChar (sep : Char) (l : List Char) :
    ∀ g ∈ splitOnChar sep l, sep ∉ g := by
  induction l with
  | nil =>
    intro g hg
    simp only [splitOnChar, List.mem_singleton] at hg
    subst hg
    exact List.not_mem_nil sep
  | cons c cs ih =>
    intro g hg
    simp only [splitOnChar] at hg
    by_cases h : c = sep
    · rw [if_pos h] at hg
      rcases List.mem_cons.mp hg with hg | hg
      · subst hg
        exact List.not_mem_nil sep
      · exact ih g hg
    · rw [if_neg h] at hg
      cases hs : splitOnChar sep cs with
      | nil => exact absurd hs (splitOnChar_ne_nil sep cs)
      | cons g0 gs =>
        rw [hs] at hg
        rcases List.mem_cons.mp hg with hg | hg
        · subst hg
          intro hmem
          rcases List.mem_cons.mp hmem with hc | hc
          · exact h hc.symm
          · exact ih g0 (hs ▸ List.mem_cons_self g0 gs) hc
        · exact ih g (hs ▸ List.mem_cons_of_mem g0 hg)

/-- Value of one base64 alphabet character; characters outside the alphabet
(including padding) yield `none` and are skipped, as Node's lenient
`Buffer.from(_, 'base64')` does. -/
def base64Val (c : Char) : Option Nat :=
  if 65 ≤ c.toNat ∧ c.toNat ≤ 90 then some (c.toNat - 65)
  else if 97 ≤ c.toNat ∧ c.toNat ≤ 122 then some (c.toNat - 97 + 26)
  else if 48 ≤ c.toNat ∧ c.toNat ≤ 57 then some (c.toNat - 48 + 52)
  else if c = '+' then some 62
  else if c = '/' then some 63
  else none

/-- Reassembles 6-bit groups into 8-bit bytes; a trailing lone sextet is
dropped, as in Node's base64 decoder. -/
def sextetsToBytes : List Nat → List Nat
  | a :: b :: c :: d :: rest =>
    (a * 4 + b / 16) :: ((b % 16) * 16 + c / 4) :: ((c % 4) * 64 + d) :: sextetsToBytes rest
  | [a, b, c] => [a * 4 + b / 16, (b % 16) * 16 + c / 4]
  | [a, b] => [a * 4 + b / 16]
  | _ => []

/-- Models `Buffer.from(s, 'base64').toString('ascii')`: base64-decode and
read the bytes as ASCII (Node masks each byte to 7 bits in ascii mode). -/
def base64DecodeAscii (s : List Char) : List Char :=
  (sextetsToBytes (s.filterMap base64Val)).map (fun b => Char.ofNat (b % 128))

/-- Field values stored in documents: the store distinguishes string-typed
from number-typed fields, so numeric equality is not string equality. -/
inductive Value where
  | str (s : String)
  | num (n : Int)
  | boolean (b : Bool)
deriving DecidableEq

/-- Lookup in an association list keyed by strings (a document's fields, or a
collection's documents keyed by id). -/
def alistGet {α : Type} : List (String × α) → String → Option α
  | [], _ => none
  | p :: rest, k => if p.1 = k then some p.2 else alistGet rest k

/-- Sets a key to a value in an association list, replacing an existing
binding or appending a new one. -/
def alistSet {α : Type} : List (String × α) → String → α → List (String × α)
  | [], k, v => [(k, v)]
  | p :: rest, k, v => if p.1 = k then (k, v) :: rest else p :: alistSet rest k v

theorem alistGet_alistSet_same {α : Type} (l : List (String × α)) (k : String) (v : α) :
    alistGet (alistSet l k v) k = some v := by
  induction l with
  | nil => simp [alistSet, alistGet]
  | cons p rest ih =>
    simp only [alistSet]
    by_cases h : p.1 = k
    · simp [h, alistGet]
    · simp [h, alistGet, ih]

theorem alistGet_alistSet_other {α : Type} (l : List (String × α)) (k k' : String) (v : α)
    (hne : k ≠ k') : alistGet (alistSet l k v) k' = alistGet l k' := by
  induction l with
  | nil => simp [alistSet, alistGet, hne]
  | cons p rest ih =>
    simp only [alistSet]
    by_cases h : p.1 = k
    · simp [alistGet, h, hne]
    · simp [alistGet, h, ih]

/-- A document is a finite map from field names to values. -/
abbrev Doc : Type := List (String × Value)

/-- Partial merge of `updates` into document `d`: each listed field is set,
all other fields are left untouched (the store's `update` primitive). -/
def docMerge (d : Doc) (updates : Doc) : Doc :=
  updates.foldl (fun acc kv => alistSet acc kv.1 kv.2) d

/-- A field named by no update is untouched by `docMerge`. -/
theorem docMerge_get_of_not_mem (updates : Doc) (d : Doc) (k : String)
    (h : ∀ kv ∈ updates, kv.1 ≠ k) :
    alistGet (docMerge d updates) k = alistGet d k := by
  induction updates generalizing d with
  | nil => simp [docMerge]
  | cons kv rest ih =>
    simp only [docMerge, List.foldl_cons]
    have hk : kv.1 ≠ k := h kv (List.mem_cons_self kv rest)
    have := ih (alistSet d kv.1 kv.2) (fun kv' hkv' => h kv' (List.mem_cons_of_mem kv hkv'))
    simp only [docMerge] at this
    rw [this, alistGet_alistSet_other d kv.1 k kv.2 hk]

/-- Modelled from the spec: the signed session token produced by the token
service (the `jsonwebtoken` wrapper is not among the provided sources). It
carries the subject identity, an absolute expiry, and the signing secret it
was signed with; a signature is valid exactly when it matches the current
signing secret. -/
structure SessionToken where
  subjectId : String
  exp : Nat
  sig : String
deriving DecidableEq

/-- Modelled from the spec: `issue(subjectId)` signs `subjectId` with the
current secret and an absolute expiry one hour (3600 seconds) after
issuance, as in `jwt.sign(.., secretKey, expiresIn 1h)`. -/
def issue (secretKey : String) (subjectId : String) (now : Nat) : SessionToken :=
  { subjectId := subjectId, exp := now + 3600, sig := secretKey }

/-- A token as presented by a client: absent, syntactically malformed, or a
well-formed signed structure. -/
inductive Presented where
  | missing
  | malformed
  | wellFormed (t : SessionToken)
deriving DecidableEq

/-- The two verification failures distinguished by the token service. -/
inductive VerifyError where
  | unauthorized
  | tokenExpired
deriving DecidableEq

/-- Modelled from the spec: `verify(presentedToken)` fails with
`Unauthorized` on a missing, malformed, or signature-invalid token, fails
with `TokenExpired` when the signature is valid but the expiry has passed,
and otherwise returns the embedded subject identity. (As in `jsonwebtoken`,
the expiry of a token whose signature does not check is never reported.) -/
def verify (secretKey : String) (now : Nat) : Presented → Except VerifyError String
  | .missing => .error .unauthorized
  | .malformed => .error .unauthorized
  | .wellFormed t =>
    if t.sig ≠ secretKey then .error .unauthorized
    else if t.exp ≤ now then .error .tokenExpired
    else .ok t.subjectId

/-- States of the token life cycle described in the spec. -/
inductive TokenState where
  | valid
  | expired
  | badSignature
deriving DecidableEq

/-- State of a token at time `now` under signing secret `secretKey`: valid
while `now` is before the expiry and the signature checks, expired once the
expiry has passed. The state is a pure function of the token and the clock:
no operation of the service mutates a token. -/
def tokenState (secretKey : String) (t : SessionToken) (now : Nat) : TokenState :=
  if t.sig ≠ secretKey then .badSignature
  else if now < t.exp then .valid
  else .expired

/-- The configured administrative credential and signing secret
(process-wide, immutable). -/
structure AuthConfig where
  adminUsername : String
  adminPassword : String
  secretKey : String
deriving DecidableEq

/-- Models `authHeader.startsWith('Basic ')` from `login`: the header's
first six characters are exactly the string Basic followed by a space. -/
def startsWithBasic (h : String) : Bool :=
  List.isPrefixOf "Basic ".toList h.toList

/-- The decoded Basic credential string of an Authorization header, from
`login`: the part after the first space, base64-decoded as ASCII. -/
def basicCredentials (h : String) : List Char :=
  base64DecodeAscii ((splitOnChar ' ' h.toList).getD 1 [])

/-- The username presented in a Basic header: the first segment of the
decoded credentials split on every colon. -/
def credUsername (h : String) : String :=
  String.mk ((splitOnChar ':' (basicCredentials h)).getD 0 [])

/-- The password presented in a Basic header: the second segment of the
decoded credentials split on every colon, absent when there is no colon. -/
def credPassword (h : String) : Option String :=
  ((splitOnChar ':' (basicCredentials h)).get? 1).map String.mk

/-- The credential comparison of `login`: both the first split segment and
the second must equal the configured administrative username and password. -/
def credentialsMatch (cfg : AuthConfig) (h : String) : Bool :=
  credUsername h == cfg.adminUsername && credPassword h == some cfg.adminPassword

/-- An HTTP request to the login endpoint, as far as `login` inspects it. -/
structure LoginReq where
  method : String
  authHeader : Option String
  bodyUid : Option String
deriving DecidableEq

/-- The observable outcome of `login`: status code, body message, and the
token cookie when one is set. -/
structure LoginResp where
  status : Nat
  body : String
  tokenCookie : Option SessionToken
deriving DecidableEq

/-- The `login` cloud function: rejects non-POST with 405; rejects a missing
or non-Basic Authorization header with 401; decodes and splits the
credentials; on a match requires a truthy body `uid` (400 otherwise) and
answers 200 with a fresh one-hour token cookie; on a failed match answers
401 Unauthorized. -/
def login (cfg : AuthConfig) (now : Nat) (req : LoginReq) : LoginResp :=
  if req.method ≠ "POST" then ⟨405, "Method Not Allowed", none⟩
  else
    match req.authHeader with
    | none => ⟨401, "Unauthorized", none⟩
    | some h =>
      if startsWithBasic h then
        if credentialsMatch cfg h then
          match req.bodyUid with
          | none => ⟨400, "Incomplete request", none⟩
          | some u =>
            if u = "" then ⟨400, "Incomplete request", none⟩
            else ⟨200, "Login successful", some (issue cfg.secretKey u now)⟩
        else ⟨401, "Unauthorized", none⟩
      else ⟨401, "Unauthorized", none⟩

/-- JavaScript falsiness of an optional query or body string: absent or
empty. -/
def jsFalsy : Option String → Bool
  | none => true
  | some s => s == ""

/-- The observable outcome of a protected resource handler: status code and
body (the serialized result on 200). -/
structure HandlerResp where
  status : Nat
  body : String
deriving DecidableEq

/-- The `getOneById` cloud function for courses. Query parameters are
checked first (400 before anything else); then `checkJwt` runs, whose
rejection maps TokenExpired to a 401 expired message and any other
verification failure to 401 Unauthorized; then the store lookup runs, whose
failure maps to 500. The returned flag records whether token verification
was attempted. -/
def getOneById (facultyId courseId : Option String)
    (checkJwt : Except VerifyError String) (fetch : Except String String) :
    HandlerResp × Bool :=
  if jsFalsy facultyId then (⟨400, "No faculty ID sent"⟩, false)
  else if jsFalsy courseId then (⟨400, "No course sent"⟩, false)
  else
    match checkJwt with
    | .error .tokenExpired => (⟨401, "Token has expired"⟩, true)
    | .error .unauthorized => (⟨401, "Unauthorized"⟩, true)
    | .ok _ =>
      match fetch with
      | .ok payload => (⟨200, payload⟩, true)
      | .error msg => (⟨500, "Failed to find course: " ++ msg⟩, true)

/-- The `getAllForFaculty` cloud function for courses: same shape as
`getOneById` with only the `facultyId` query parameter. -/
def getAllForFaculty (facultyId : Option String)
    (checkJwt : Except VerifyError String) (fetch : Except String String) :
    HandlerResp × Bool :=
  if jsFalsy facultyId then (⟨400, "No faculty ID sent"⟩, false)
  else
    match checkJwt with
    | .error .tokenExpired => (⟨401, "Token has expired"⟩, true)
    | .error .unauthorized => (⟨401, "Unauthorized"⟩, true)
    | .ok _ =>
      match fetch with
      | .ok payload => (⟨200, payload⟩, true)
      | .error msg => (⟨500, "Failed to find courses for faculty: " ++ msg⟩, true)

/-- The user-profile database: profiles keyed by uid. -/
abbrev Db : Type := List (String × Doc)

/-- `saveUser(uid)` from userService: reads the profile document; when it
does not exist, creates it with the uid and the default Student role and
returns false; when it exists, writes nothing and returns true. -/
def saveUser (db : Db) (uid : String) : Bool × Db :=
  match alistGet db uid with
  | some _ => (true, db)
  | none => (false, alistSet db uid [("uid", Value.str uid), ("role", Value.str "Student")])

/-- Modelled from the spec: `filterForAllowedKeys` (the batchOperations
utility is not among the provided sources) restricts an update map to the
allow-listed mutable field names, silently dropping every other key. -/
def filterForAllowedKeys (updates : Doc) (allowedKeys : List String) : Doc :=
  updates.filter (fun kv => allowedKeys.contains kv.1)

/-- Modelled from the spec: the allow-list of mutable user-profile fields
(the constants module is not among the provided sources); the spec
guarantees that `role` is allow-listed and that `notAllowedField` is not. -/
def userAllowedKeys : List String := ["role", "email"]

/-- `updateUser(uid, updates)` from userService: first filters the updates
down to the allow-listed keys, then fails when no profile exists for `uid`,
and otherwise partially merges exactly the filtered fields into the stored
profile. -/
def updateUser (allowedKeys : List String) (db : Db) (uid : String) (updates : Doc) :
    Except String (String × Db) :=
  let filteredUpdates := filterForAllowedKeys updates allowedKeys
  match alistGet db uid with
  | none => .error ("No user found with ID: " ++ uid)
  | some doc =>
    .ok ("User document with ID: " ++ uid ++ " updated successfully.",
      alistSet db uid (docMerge doc filteredUpdates))

/-- An item of a faculty-scoped collection: a document id and its fields. -/
structure Item where
  id : String
  data : Doc
deriving DecidableEq

/-- The hierarchical document store: faculties by id, each holding named
sub-collections of items. -/
abbrev Store : Type := List (String × List (String × List Item))

/-- The items of one faculty's named sub-collection; the empty sequence when
the faculty or the collection is absent. -/
def facultyCollection (store : Store) (facultyId collectionName : String) : List Item :=
  (((alistGet store facultyId).bind (fun cs => alistGet cs collectionName)).getD [])

/-- Modelled from the spec: `getByFilter` of the faculty-collection
repository (the facultyCollections service is not among the provided
sources) returns the items of the named sub-collection whose named field is
numerically equal to the given value, as in the store's equality query with
a number-typed operand. -/
def getItemByFacultyAndCollectionAndFilterById (store : Store)
    (facultyId collectionName fieldName : String) (fieldValue : Int) : List Item :=
  (facultyCollection store facultyId collectionName).filter
    (fun it => decide (alistGet it.data fieldName = some (Value.num fieldValue)))

/-- C1: for every valid admin credential pair and every non-empty
`subjectId`, issuing a token for `subjectId` and immediately verifying it
under the current signing secret succeeds and returns that same
`subjectId`. -/
theorem issue_then_verify_roundtrip (cfg : AuthConfig) (h : String) (subjectId : String)
    (now : Nat) (hcred : credentialsMatch cfg h = true) (hne : subjectId ≠ "") :
    verify cfg.secretKey now (.wellFormed (issue cfg.secretKey subjectId now)) =
      .ok subjectId := by
  simp [verify, issue]

/-- Witness for C1 at the concrete credential admin:pw and subject u1. -/
theorem issue_then_verify_roundtrip_witness :
    verify "s" 1000 (.wellFormed (issue "s" "u1" 1000)) = .ok "u1" :=
  issue_then_verify_roundtrip ⟨"admin", "pw", "s"⟩ "Basic YWRtaW46cHc=" "u1" 1000
    (by decide) (by decide)

/-- C2: `verify` fails with TokenExpired exactly when the signature is valid
but the expiry has passed, fails with Unauthorized exactly on every other
failure (missing, malformed, or signature-invalid token), and the protected
handler maps TokenExpired to the 401 expired response and Unauthorized to
the 401 Unauthorized response. -/
theorem verify_error_split (secretKey : String) (now : Nat) (p : Presented) :
    (verify secretKey now p = .error .tokenExpired ↔
      ∃ t, p = .wellFormed t ∧ t.sig = secretKey ∧ t.exp ≤ now) ∧
    (verify secretKey now p = .error .unauthorized ↔
      (p = .missing ∨ p = .malformed ∨ ∃ t, p = .wellFormed t ∧ t.sig ≠ secretKey)) ∧
    (∀ facultyId courseId fetch,
      jsFalsy facultyId = false → jsFalsy courseId = false →
      (getOneById facultyId courseId (.error .tokenExpired) fetch).1 =
        ⟨401, "Token has expired"⟩ ∧
      (getOneById facultyId courseId (.error .unauthorized) fetch).1 =
        ⟨401, "Unauthorized"⟩) ∧
    (∀ facultyId fetch, jsFalsy facultyId = false →
      (getAllForFaculty facultyId (.error .tokenExpired) fetch).1 =
        ⟨401, "Token has expired"⟩ ∧
      (getAllForFaculty facultyId (.error .unauthorized) fetch).1 =
        ⟨401, "Unauthorized"⟩) := by
  refine ⟨?_, ?_, ?_, ?_⟩
  · cases p with
    | missing => simp [verify]
    | malformed => simp [verify]
    | wellFormed t =>
      by_cases hs : t.sig = secretKey
      · by_cases he : t.exp ≤ now
        · simp [verify, hs, he]
        · simp [verify, hs, he]
      · simp [verify, hs]
  · cases p with
    | missing => simp [verify]
    | malformed => simp [verify]
    | wellFormed t =>
      by_cases hs : t.sig = secretKey
      · by_cases he : t.exp ≤ now
        · simp [verify, hs, he]
        · simp [verify, hs, he]
      · simp [verify, hs]
  · intro facultyId courseId fetch hfa hco
    constructor <;> simp [getOneById, hfa, hco]
  · intro facultyId fetch hfa
    constructor <;> simp [getAllForFaculty, hfa]

/-- Witness for C2: a signature-valid expired token is reported expired and
mapped to the 401 expired response. -/
theorem verify_error_split_witness :
    verify "s" 4000 (.wellFormed ⟨"u1", 3600, "s"⟩) = .error .tokenExpired ∧
    (getOneById (some "F1") (some "C1") (.error .tokenExpired) (.ok "x")).1 =
      ⟨401, "Token has expired"⟩ := by
  have h := verify_error_split "s" 4000 (.wellFormed ⟨"u1", 3600, "s"⟩)
  exact ⟨h.1.mpr ⟨⟨"u1", 3600, "s"⟩, rfl, rfl, by decide⟩,
    (h.2.2.1 (some "F1") (some "C1") (.ok "x") rfl rfl).1⟩

/-- C8: an issued token expires exactly one hour (3600 seconds) after
issuance, is in the valid state (and verifies to its subject) at every
instant before the expiry, is expired at every instant from the expiry on,
and once expired never leaves that state; validity is a pure function of
the token and the clock, so no operation revokes it earlier. -/
theorem token_lifecycle (secretKey subjectId : String) (t0 : Nat) :
    (issue secretKey subjectId t0).exp = t0 + 3600 ∧
    (∀ now, now < t0 + 3600 →
      tokenState secretKey (issue secretKey subjectId t0) now = .valid ∧
      verify secretKey now (.wellFormed (issue secretKey subjectId t0)) = .ok subjectId) ∧
    (∀ now, t0 + 3600 ≤ now →
      tokenState secretKey (issue secretKey subjectId t0) now = .expired) ∧
    (∀ n1 n2, n1 ≤ n2 →
      tokenState secretKey (issue secretKey subjectId t0) n1 = .expired →
      tokenState secretKey (issue secretKey subjectId t0) n2 = .expired) := by
  refine ⟨rfl, ?_, ?_, ?_⟩
  · intro now hnow
    constructor
    · simp [tokenState, issue, hnow]
    · have : ¬ (t0 + 3600 ≤ now) := by omega
      simp [verify, issue, this]
  · intro now hnow
    have : ¬ (now < t0 + 3600) := by omega
    simp [tokenState, issue, this]
  · intro n1 n2 hle h1
    simp only [tokenState, issue] at h1 ⊢
    by_cases hlt : n1 < t0 + 3600
    · simp [hlt] at h1
    · have : ¬ (n2 < t0 + 3600) := by omega
      simp [this]

/-- Witness for C8 with a token issued at time 0 under secret s. -/
theorem token_lifecycle_witness :
    (issue "s" "u1" 0).exp = 3600 ∧
    tokenState "s" (issue "s" "u1" 0) 10 = .valid ∧
    tokenState "s" (issue "s" "u1" 0) 3600 = .expired := by
  have h := token_lifecycle "s" "u1" 0
  exact ⟨h.1, (h.2.1 10 (by decide)).1, h.2.2.1 3600 (by decide)⟩

/-- C3: `saveUser` is an idempotent create: when no profile exists for the
uid it returns false and the stored profile afterwards is exactly the
default one with role Student; when a profile exists it returns true and
the whole database is unchanged (no write at all). -/
theorem saveUser_idempotent_create (db : Db) (uid : String) :
    (alistGet db uid = none →
      (saveUser db uid).1 = false ∧
      alistGet (saveUser db uid).2 uid =
        some [("uid", Value.str uid), ("role", Value.str "Student")]) ∧
    (alistGet db uid ≠ none → saveUser db uid = (true, db)) := by
  constructor
  · intro h
    simp [saveUser, h, alistGet_alistSet_same]
  · intro h
    cases hg : alistGet db uid with
    | none => exact absurd hg h
    | some d => simp [saveUser, hg]

/-- Witness for C3: first save of u1 creates the Student profile and
returns false; the second save returns true and mutates nothing. -/
theorem saveUser_idempotent_create_witness :
    (saveUser [] "u1").1 = false ∧
    alistGet (saveUser [] "u1").2 "u1" =
      some [("uid", Value.str "u1"), ("role", Value.str "Student")] ∧
    saveUser (saveUser [] "u1").2 "u1" = (true, (saveUser [] "u1").2) := by
  refine ⟨((saveUser_idempotent_create [] "u1").1 rfl).1,
    ((saveUser_idempotent_create [] "u1").1 rfl).2, ?_⟩
  exact (saveUser_idempotent_create (saveUser [] "u1").2 "u1").2 (by decide)

/-- C4: `updateUser` first restricts the updates to the allow-listed keys
(dropping the rest silently, never an error), fails with the not-found
error when no profile exists, and otherwise merges exactly the filtered
fields; a non-allow-listed key is never written, so one absent before the
update is absent after it. -/
theorem updateUser_allowlist_merge (allowedKeys : List String) (db : Db) (uid : String)
    (updates : Doc) (k : String) (hk : k ∉ allowedKeys) :
    (alistGet db uid = none →
      updateUser allowedKeys db uid updates =
        .error ("No user found with ID: " ++ uid)) ∧
    (∀ d, alistGet db uid = some d →
      updateUser allowedKeys db uid updates =
        .ok ("User document with ID: " ++ uid ++ " updated successfully.",
          alistSet db uid (docMerge d (filterForAllowedKeys updates allowedKeys))) ∧
      alistGet (docMerge d (filterForAllowedKeys updates allowedKeys)) k =
        alistGet d k) := by
  constructor
  · intro h
    simp [updateUser, h]
  · intro d hd
    refine ⟨by simp [updateUser, hd], ?_⟩
    apply docMerge_get_of_not_mem
    intro kv hkv
    have hmem := (List.mem_filter.mp hkv).2
    intro hEq
    rw [hEq] at hmem
    have : k ∈ allowedKeys := by simpa using hmem
    exact hk this

/-- Witness for C4: updating u1 with an allowed role change and a
non-allow-listed field stores the new role and leaves the other field
absent. -/
theorem updateUser_allowlist_merge_witness :
    updateUser userAllowedKeys
        [("u1", [("uid", Value.str "u1"), ("role", Value.str "Student")])] "u1"
        [("role", Value.str "Admin"), ("notAllowedField", Value.str "x")] =
      .ok ("User document with ID: u1 updated successfully.",
        [("u1", [("uid", Value.str "u1"), ("role", Value.str "Admin")])]) ∧
    alistGet [("uid", Value.str "u1"), ("role", Value.str "Admin")] "notAllowedField" =
      none := by
  have h := updateUser_allowlist_merge userAllowedKeys
      [("u1", [("uid", Value.str "u1"), ("role", Value.str "Student")])] "u1"
      [("role", Value.str "Admin"), ("notAllowedField", Value.str "x")]
      "notAllowedField" (by decide)
  obtain ⟨hok, -⟩ := h.2 [("uid", Value.str "u1"), ("role", Value.str "Student")] rfl
  exact ⟨by rw [hok]; rfl, rfl⟩

/-- C10: in the protected handlers the required-query-parameter check
precedes token verification: with the parameter missing the response is 400
for every verification outcome (no token, expired token, valid token) and
verification is never attempted (the attempted flag stays false). -/
theorem query_check_precedes_verification (facultyId courseId : Option String)
    (checkJwt : Except VerifyError String) (f1 f2 : Except String String) :
    (jsFalsy facultyId = true →
      getOneById facultyId courseId checkJwt f1 = (⟨400, "No faculty ID sent"⟩, false) ∧
      getAllForFaculty facultyId checkJwt f2 = (⟨400, "No faculty ID sent"⟩, false)) ∧
    (jsFalsy facultyId = false → jsFalsy courseId = true →
      getOneById facultyId courseId checkJwt f1 = (⟨400, "No course sent"⟩, false)) := by
  constructor
  · intro hf
    constructor <;> simp [getOneById, getAllForFaculty, hf]
  · intro hf hc
    simp [getOneById, hf, hc]

/-- Witness for C10: a request with no facultyId and an expired token gets
400 and verification is not attempted, in both handlers. -/
theorem query_check_precedes_verification_witness :
    getOneById none (some "C1") (.error .tokenExpired) (.ok "x") =
      (⟨400, "No faculty ID sent"⟩, false) ∧
    getAllForFaculty none (.error .tokenExpired) (.ok "y") =
      (⟨400, "No faculty ID sent"⟩, false) :=
  (query_check_precedes_verification none (some "C1") (.error .tokenExpired)
    (.ok "x") (.ok "y")).1 rfl

/-- C7: the repository filter returns exactly the items of the faculty's
courses collection whose named field numerically equals the given value;
it returns the empty sequence (not an error) when nothing matches; and an
item whose field holds a string value is never returned, because the
comparison is against a number-typed value. -/
theorem getByFilter_exact_subset (store : Store) (facultyId fieldName : String)
    (fieldValue : Int) :
    (∀ it, it ∈ getItemByFacultyAndCollectionAndFilterById store facultyId "courses"
        fieldName fieldValue ↔
      (it ∈ facultyCollection store facultyId "courses" ∧
        alistGet it.data fieldName = some (Value.num fieldValue))) ∧
    ((∀ it ∈ facultyCollection store facultyId "courses",
        alistGet it.data fieldName ≠ some (Value.num fieldValue)) →
      getItemByFacultyAndCollectionAndFilterById store facultyId "courses"
        fieldName fieldValue = []) ∧
    (∀ it, it ∈ getItemByFacultyAndCollectionAndFilterById store facultyId "courses"
        fieldName fieldValue →
      ∀ s : String, alistGet it.data fieldName ≠ some (Value.str s)) := by
  refine ⟨?_, ?_, ?_⟩
  · intro it
    simp [getItemByFacultyAndCollectionAndFilterById, List.mem_filter]
  · intro hnone
    simp only [getItemByFacultyAndCollectionAndFilterById]
    rw [List.filter_eq_nil_iff]
    intro it hit
    simpa using hnone it hit
  · intro it hit s
    have h := (List.mem_filter.mp hit).2
    have : alistGet it.data fieldName = some (Value.num fieldValue) := by simpa using h
    rw [this]
    intro hcontra
    exact Value.noConfusion (Option.some.inj hcontra)

/-- Witness for C7: with programId 3 the filter keeps exactly the
number-typed match and drops both a different number and the string "3";
with programId 5 it is empty. -/
theorem getByFilter_exact_subset_witness :
    (⟨"c1", [("programId", Value.num 3)]⟩ : Item) ∈
      getItemByFacultyAndCollectionAndFilterById
        [("F1", [("courses",
          [⟨"c1", [("programId", Value.num 3)]⟩,
           ⟨"c2", [("programId", Value.num 4)]⟩,
           ⟨"c3", [("programId", Value.str "3")]⟩])])]
        "F1" "courses" "programId" 3 ∧
    (⟨"c3", [("programId", Value.str "3")]⟩ : Item) ∉
      getItemByFacultyAndCollectionAndFilterById
        [("F1", [("courses",
          [⟨"c1", [("programId", Value.num 3)]⟩,
           ⟨"c2", [("programId", Value.num 4)]⟩,
           ⟨"c3", [("programId", Value.str "3")]⟩])])]
        "F1" "courses" "programId" 3 ∧
    getItemByFacultyAndCollectionAndFilterById
        [("F1", [("courses",
          [⟨"c1", [("programId", Value.num 3)]⟩,
           ⟨"c2", [("programId", Value.num 4)]⟩,
           ⟨"c3", [("programId", Value.str "3")]⟩])])]
        "F1" "courses" "programId" 5 = [] := by
  have h := getByFilter_exact_subset
      [("F1", [("courses",
        [⟨"c1", [("programId", Value.num 3)]⟩,
         ⟨"c2", [("programId", Value.num 4)]⟩,
         ⟨"c3", [("programId", Value.str "3")]⟩])])]
      "F1" "programId" 3
  have h5 := getByFilter_exact_subset
      [("F1", [("courses",
        [⟨"c1", [("programId", Value.num 3)]⟩,
         ⟨"c2", [("programId", Value.num 4)]⟩,
         ⟨"c3", [("programId", Value.str "3")]⟩])])]
      "F1" "programId" 5
  refine ⟨(h.1 ⟨"c1", [("programId", Value.num 3)]⟩).mpr ⟨by decide, rfl⟩, ?_, ?_⟩
  · intro hmem
    have := ((h.1 ⟨"c3", [("programId", Value.str "3")]⟩).mp hmem).2
    exact absurd this (by decide)
  · exact h5.2.1 (by decide)

/-- C5: the login handler answers 405 to a non-POST request; 401 to a POST
with a missing, non-Basic, or non-matching credential header; 400 to a POST
with matching credentials but a falsy body uid; and 200 with the success
message and a fresh token cookie to a POST with matching credentials and a
uid. -/
theorem login_contract (cfg : AuthConfig) (now : Nat) (req : LoginReq) :
    (req.method ≠ "POST" → login cfg now req = ⟨405, "Method Not Allowed", none⟩) ∧
    (req.method = "POST" → req.authHeader = none →
      login cfg now req = ⟨401, "Unauthorized", none⟩) ∧
    (∀ h, req.method = "POST" → req.authHeader = some h →
      (startsWithBasic h = false ∨ credentialsMatch cfg h = false) →
      login cfg now req = ⟨401, "Unauthorized", none⟩) ∧
    (∀ h, req.method = "POST" → req.authHeader = some h →
      startsWithBasic h = true → credentialsMatch cfg h = true →
      (jsFalsy req.bodyUid = true → login cfg now req = ⟨400, "Incomplete request", none⟩) ∧
      (∀ u, req.bodyUid = some u → u ≠ "" →
        login cfg now req =
          ⟨200, "Login successful", some (issue cfg.secretKey u now)⟩)) := by
  obtain ⟨m, ah, bu⟩ := req
  refine ⟨?_, ?_, ?_, ?_⟩
  · intro hm
    simp only [LoginReq.method] at hm
    simp [login, hm]
  · intro hm hah
    simp only [LoginReq.method] at hm
    simp only [LoginReq.authHeader] at hah
    subst hm
    subst hah
    simp [login]
  · intro h hm hah hbad
    simp only [LoginReq.method] at hm
    simp only [LoginReq.authHeader] at hah
    subst hm
    subst hah
    rcases hbad with hb | hb
    · simp [login, hb]
    · by_cases hs : startsWithBasic h = true
      · simp [login, hs, hb]
      · simp [login, hs]
  · intro h hm hah hs hc
    simp only [LoginReq.method] at hm
    simp only [LoginReq.authHeader] at hah
    subst hm
    subst hah
    constructor
    · intro hu
      simp only [LoginReq.bodyUid] at hu
      cases bu with
      | none => simp [login, hs, hc]
      | some u =>
        simp only [jsFalsy, beq_iff_eq] at hu
        simp [login, hs, hc, hu]
    · intro u hu hune
      simp only [LoginReq.bodyUid] at hu
      subst hu
      simp [login, hs, hc, hune]

/-- Witness for C5: the success branch with credential admin:pw and uid u1,
and the 405 branch on a GET. -/
theorem login_contract_witness :
    login ⟨"admin", "pw", "s"⟩ 7 ⟨"POST", some "Basic YWRtaW46cHc=", some "u1"⟩ =
      ⟨200, "Login successful", some (issue "s" "u1" 7)⟩ ∧
    login ⟨"admin", "pw", "s"⟩ 7 ⟨"GET", some "Basic YWRtaW46cHc=", some "u1"⟩ =
      ⟨405, "Method Not Allowed", none⟩ := by
  have h1 := login_contract ⟨"admin", "pw", "s"⟩ 7
    ⟨"POST", some "Basic YWRtaW46cHc=", some "u1"⟩
  have h2 := login_contract ⟨"admin", "pw", "s"⟩ 7
    ⟨"GET", some "Basic YWRtaW46cHc=", some "u1"⟩
  exact ⟨(h1.2.2.2 "Basic YWRtaW46cHc=" rfl rfl rfl (by decide)).2 "u1" rfl (by decide),
    h2.1 (by decide)⟩

/-- C6: two failing credential pairs — one with a wrong username, one with
the right username but a wrong password — produce the identical login
outcome, the single 401 Unauthorized response with no cookie, regardless of
clock or body. -/
theorem login_unauthorized_indistinguishable (cfg : AuthConfig) (n1 n2 : Nat)
    (h1 h2 : String) (uid1 uid2 : Option String)
    (hs1 : startsWithBasic h1 = true) (hs2 : startsWithBasic h2 = true)
    (hu1 : credUsername h1 ≠ cfg.adminUsername)
    (hu2 : credUsername h2 = cfg.adminUsername)
    (hp2 : credPassword h2 ≠ some cfg.adminPassword) :
    login cfg n1 ⟨"POST", some h1, uid1⟩ = login cfg n2 ⟨"POST", some h2, uid2⟩ ∧
    login cfg n1 ⟨"POST", some h1, uid1⟩ = ⟨401, "Unauthorized", none⟩ := by
  have c1 : credentialsMatch cfg h1 = false := by
    cases hcc : credentialsMatch cfg h1 with
    | false => rfl
    | true =>
      have hm := hcc
      simp only [credentialsMatch, Bool.and_eq_true, beq_iff_eq] at hm
      exact absurd hm.1 hu1
  have c2 : credentialsMatch cfg h2 = false := by
    cases hcc : credentialsMatch cfg h2 with
    | false => rfl
    | true =>
      have hm := hcc
      simp only [credentialsMatch, Bool.and_eq_true, beq_iff_eq] at hm
      exact absurd hm.2 hp2
  constructor
  · simp [login, hs1, hs2, c1, c2]
  · simp [login, hs1, c1]

/-- Witness for C6 at wrong:pw versus admin:bad under the configured
credential admin:pw. -/
theorem login_unauthorized_indistinguishable_witness :
    login ⟨"admin", "pw", "s"⟩ 1 ⟨"POST", some "Basic d3Jvbmc6cHc=", some "u1"⟩ =
      login ⟨"admin", "pw", "s"⟩ 2 ⟨"POST", some "Basic YWRtaW46YmFk", none⟩ ∧
    login ⟨"admin", "pw", "s"⟩ 1 ⟨"POST", some "Basic d3Jvbmc6cHc=", some "u1"⟩ =
      ⟨401, "Unauthorized", none⟩ :=
  login_unauthorized_indistinguishable ⟨"admin", "pw", "s"⟩ 1 2
    "Basic d3Jvbmc6cHc=" "Basic YWRtaW46YmFk" (some "u1") none
    (by decide) (by decide) (by decide) (by decide) (by decide)

/-- C9: the login handler splits the decoded credential string on every
colon and compares only the first segment as username and the second as
password, so when the configured administrative password itself contains a
colon, every POST request — whatever credentials it presents — fails with
the 401 Unauthorized response and no cookie. -/
theorem login_fails_when_password_has_colon (cfg : AuthConfig) (now : Nat)
    (req : LoginReq) (hp : ':' ∈ cfg.adminPassword.toList) (hm : req.method = "POST") :
    (login cfg now req).status = 401 ∧ (login cfg now req).body = "Unauthorized" ∧
    (login cfg now req).tokenCookie = none := by
  have key : ∀ h : String, credentialsMatch cfg h = false := by
    intro h
    cases hcc : credentialsMatch cfg h with
    | false => rfl
    | true =>
      exfalso
      have hmm := hcc
      simp only [credentialsMatch, Bool.and_eq_true, beq_iff_eq] at hmm
      obtain ⟨-, hpw⟩ := hmm
      unfold credPassword at hpw
      cases hg : (splitOnChar ':' (basicCredentials h)).get? 1 with
      | none => rw [hg] at hpw; simp at hpw
      | some g =>
        rw [hg] at hpw
        simp only [Option.map_some', Option.some.injEq] at hpw
        have hmem : g ∈ splitOnChar ':' (basicCredentials h) := List.get?_mem hg
        have hnc : ':' ∉ g := not_mem_of_mem_splitOnChar ':' _ g hmem
        rw [← hpw] at hp
        exact hnc hp
  obtain ⟨m, ah, bu⟩ := req
  simp only [LoginReq.method] at hm
  subst hm
  cases ah with
  | none => simp [login]
  | some h =>
    by_cases hs : startsWithBasic h = true
    · simp [login, hs, key h]
    · simp [login, hs]

/-- Witness for C9: with the password configured as a:b, even the header
encoding exactly admin:a:b is rejected with 401. -/
theorem login_fails_when_password_has_colon_witness :
    (login ⟨"admin", "a:b", "s"⟩ 3 ⟨"POST", some "Basic YWRtaW46YTpi", some "u1"⟩).status =
      401 ∧
    (login ⟨"admin", "a:b", "s"⟩ 3 ⟨"POST", some "Basic YWRtaW46YTpi", some "u1"⟩).body =
      "Unauthorized" ∧
    (login ⟨"admin", "a:b", "s"⟩ 3
        ⟨"POST", some "Basic YWRtaW46YTpi", some "u1"⟩).tokenCookie = none :=
  login_fails_when_password_has_colon ⟨"admin", "a:b", "s"⟩ 3
    ⟨"POST", some "Basic YWRtaW46YTpi", some "u1"⟩ (by decide) rfl

end PametniUrnik
